import Mathlib

/-!
Verification development for the shipment-tracking ETL utility.

The repository holds two near-duplicate implementations of the same
pipeline: `solution_script.py` (standard library only) and
`solution_pandas.py` (pandas based).  This file shallowly embeds the
transformation core of both implementations — timestamp normalization to
IST, record flattening, the days-taken and delivery-attempts computations,
and the mean/median/mode aggregation — and proves the frozen claims about
them.

Conventions of the embedding:
* a timezone-aware Python `datetime` / pandas `Timestamp` is a `ZonedDT`:
  an instant in milliseconds since the Unix epoch together with the UTC
  offset (in minutes) of the zone it is rendered in; `astimezone` keeps the
  instant and changes the offset;
* Python `date` values are integers: the number of days between the local
  calendar date and 1970-01-01 (proleptic Gregorian), so that subtracting
  two dates models `(a - b).days`;
* fallible Python code (exceptions) is `Option` / `Except String`;
* `dict.get` with a default is `Option.getD`; direct indexing that can
  raise `KeyError` threads through `Except`.
-/

/-- The fixed IST offset, in minutes east of UTC (UTC+5:30, no DST). -/
def istOffsetMin : Int := 330

/-- A timezone-aware datetime: an absolute instant (ms since the Unix
epoch) plus the UTC offset, in minutes, of the zone it is expressed in. -/
structure ZonedDT where
  instantMs : Int
  offsetMin : Int
deriving DecidableEq, Repr

/-- Local calendar date (days since 1970-01-01 in the datetime's own zone),
modelling Python's `datetime.date()` of an aware datetime. -/
def localDayOf (z : ZonedDT) : Int :=
  (z.instantMs + z.offsetMin * 60000).fdiv 86400000

/-- IST calendar date of an epoch-millisecond instant: models
`datetime.fromtimestamp(ms/1000, tz=utc).astimezone(IST).date()`. -/
def istDateOfMs (ms : Int) : Int :=
  (ms + istOffsetMin * 60000).fdiv 86400000

/-- Gregorian leap-year test, as `calendar.isleap` / `datetime` use it. -/
def isLeap (y : Nat) : Bool :=
  y % 4 == 0 && (y % 100 != 0 || y % 400 == 0)

/-- Number of days in a month of the proleptic Gregorian calendar. -/
def daysInMonth (y m : Nat) : Nat :=
  if m = 2 then (if isLeap y then 29 else 28)
  else if m = 4 ∨ m = 6 ∨ m = 9 ∨ m = 11 then 30
  else 31

/-- Days from 1970-01-01 to the civil date `y-m-d` (Howard Hinnant's
`days_from_civil` algorithm, the arithmetic underlying Python's
`datetime.date.toordinal`), for years `1 ≤ y`. -/
def daysFromCivil (y m d : Nat) : Int :=
  let y' := if m ≤ 2 then y - 1 else y
  let era := y' / 400
  let yoe := y' % 400
  let doy := (153 * (if 2 < m then m - 3 else m + 9) + 2) / 5 + (d - 1)
  let doe := yoe * 365 + yoe / 4 - yoe / 100 + doy
  ((era * 146097 + doe : Nat) : Int) - 719468

/-- Epoch milliseconds of the civil time `y-m-d hh:mi:ss` read as UTC. -/
def epochMsOfCivil (y m d hh mi ss : Nat) : Int :=
  daysFromCivil y m d * 86400000 + ((hh * 3600 + mi * 60 + ss : Nat) : Int) * 1000

/-- Civil components in the ranges Python's `datetime` constructor
accepts (restricted to four-digit years, as ISO-8601 strings carry). -/
def validCivil (y m d hh mi ss : Nat) : Prop :=
  1 ≤ y ∧ y ≤ 9999 ∧ 1 ≤ m ∧ m ≤ 12 ∧ 1 ≤ d ∧ d ≤ daysInMonth y m ∧
    hh ≤ 23 ∧ mi ≤ 59 ∧ ss ≤ 59

instance (y m d hh mi ss : Nat) : Decidable (validCivil y m d hh mi ss) := by
  unfold validCivil; infer_instance

/-- Value of an ASCII decimal digit character, `none` otherwise. -/
def charToDigit (c : Char) : Option Nat :=
  if c.isDigit then some (c.toNat - 48) else none

/-- Nat denoted by a list of decimal digit characters (most significant
first), as `int(...)` reads it; leading zeros are allowed. -/
def natOfDigitsL (cs : List Char) : Nat :=
  cs.foldl (fun acc c => 10 * acc + (c.toNat - 48)) 0

/-- Python's `str.isdigit` on ASCII content: nonempty and all digits. -/
def isDigitStringB (s : String) : Bool :=
  !s.toList.isEmpty && s.toList.all Char.isDigit

/-- Python's `int(...)` on a string: optional sign then decimal digits
(the subset relevant to this pipeline). -/
def pyInt (s : String) : Option Int :=
  match s.toList with
  | [] => none
  | c :: rest =>
      if c = '-' then
        if !rest.isEmpty && rest.all Char.isDigit then some (-(natOfDigitsL rest : Int)) else none
      else if c = '+' then
        if !rest.isEmpty && rest.all Char.isDigit then some ((natOfDigitsL rest : Int)) else none
      else
        if (c :: rest).all Char.isDigit then some ((natOfDigitsL (c :: rest) : Int)) else none

/-- Consume one expected character. -/
def expectChar (c : Char) : List Char → Option (List Char)
  | x :: rest => if x = c then some rest else none
  | [] => none

/-- Consume two decimal digits as a two-digit number. -/
def parse2 : List Char → Option (Nat × List Char)
  | c1 :: c2 :: rest =>
      match charToDigit c1, charToDigit c2 with
      | some d1, some d2 => some (10 * d1 + d2, rest)
      | _, _ => none
  | _ => none

/-- Consume four decimal digits as a four-digit number. -/
def parse4 (cs : List Char) : Option (Nat × List Char) :=
  match parse2 cs with
  | none => none
  | some (a, cs1) =>
      match parse2 cs1 with
      | none => none
      | some (b, cs2) => some (100 * a + b, cs2)

/-- Result of ISO-8601 parsing: civil components plus the UTC offset in
minutes when the string carried one (`none` = naive). -/
structure IsoResult where
  year : Nat
  month : Nat
  day : Nat
  hour : Nat
  minute : Nat
  second : Nat
  offsetMin : Option Int
deriving DecidableEq, Repr

/-- Range validation performed by the `datetime` constructor that
`dateutil.parser.isoparse` ultimately calls. -/
def mkIso (y m d hh mi ss : Nat) (off : Option Int) : Option IsoResult :=
  if validCivil y m d hh mi ss then some ⟨y, m, d, hh, mi, ss, off⟩ else none

/-- Consume a trailing UTC-offset designator: end of input (naive),
`Z`, or `±HH:MM`. -/
def parseOffset : List Char → Option (Option Int × List Char)
  | [] => some (none, [])
  | 'Z' :: rest => some (some 0, rest)
  | '+' :: rest =>
      match parse2 rest with
      | none => none
      | some (h, rest1) =>
          match expectChar ':' rest1 with
          | none => none
          | some rest2 =>
              match parse2 rest2 with
              | none => none
              | some (m, rest3) =>
                  if h ≤ 23 ∧ m ≤ 59 then some (some ((h * 60 + m : Nat) : Int), rest3) else none
  | '-' :: rest =>
      match parse2 rest with
      | none => none
      | some (h, rest1) =>
          match expectChar ':' rest1 with
          | none => none
          | some rest2 =>
              match parse2 rest2 with
              | none => none
              | some (m, rest3) =>
                  if h ≤ 23 ∧ m ≤ 59 then some (some (-((h * 60 + m : Nat) : Int)), rest3) else none
  | _ => none

/-- Models `dateutil.parser.isoparse` on the format family this dataset
uses: `YYYY-MM-DD`, optionally `THH:MM:SS`, optionally `Z` or `±HH:MM`. -/
def isoparseChars (cs : List Char) : Option IsoResult :=
  match parse4 cs with
  | none => none
  | some (y, cs1) =>
  match expectChar '-' cs1 with
  | none => none
  | some cs2 =>
  match parse2 cs2 with
  | none => none
  | some (mo, cs3) =>
  match expectChar '-' cs3 with
  | none => none
  | some cs4 =>
  match parse2 cs4 with
  | none => none
  | some (d, cs5) =>
  match cs5 with
  | [] => mkIso y mo d 0 0 0 none
  | c :: cs6 =>
      if c = 'T' then
        match parse2 cs6 with
        | none => none
        | some (hh, cs7) =>
        match expectChar ':' cs7 with
        | none => none
        | some cs8 =>
        match parse2 cs8 with
        | none => none
        | some (mi, cs9) =>
        match expectChar ':' cs9 with
        | none => none
        | some cs10 =>
        match parse2 cs10 with
        | none => none
        | some (ss, cs11) =>
        match parseOffset cs11 with
        | none => none
        | some (off, cs12) =>
            if cs12.isEmpty then mkIso y mo d hh mi ss off else none
      else none

/-- String-level entry point of the ISO parser model. -/
def isoparse (s : String) : Option IsoResult :=
  isoparseChars s.toList

/-- The naive-means-UTC instant of a parse result: civil components read
in the carried offset, or in UTC when the string was naive. -/
def isoInstantMs (r : IsoResult) : Int :=
  epochMsOfCivil r.year r.month r.day r.hour r.minute r.second - r.offsetMin.getD 0 * 60000

/-- Embeds `parse_iso_to_ist` of `solution_script.py`: `isoparse`, assume
UTC when naive, then `astimezone(IST)`. -/
def parse_iso_to_ist (s : String) : Option ZonedDT :=
  (isoparse s).map fun r => ⟨isoInstantMs r, istOffsetMin⟩

/-- Embeds `millis_to_ist` of `solution_script.py`: `int(ms_str)`,
`fromtimestamp(ms/1000, tz=utc)`, then `astimezone(IST)`. -/
def millis_to_ist (s : String) : Option ZonedDT :=
  (pyInt s).map fun ms => ⟨ms, istOffsetMin⟩

/-- Embeds `parse_to_ist` of `solution_pandas.py`: digit-only strings are
epoch milliseconds (`pd.to_datetime(int(ts), unit="ms", utc=True)`), any
other string goes through `isoparse` with UTC assumed when naive; both
results are then converted to IST. -/
def parse_to_ist (s : String) : Option ZonedDT :=
  if isDigitStringB s then
    some ⟨(natOfDigitsL s.toList : Int), istOffsetMin⟩
  else
    (isoparse s).map fun r => ⟨isoInstantMs r, istOffsetMin⟩

/-- Two-digit zero-padded decimal rendering (digits of `n % 100`). -/
def pad2 (n : Nat) : List Char :=
  [Nat.digitChar (n / 10 % 10), Nat.digitChar (n % 10)]

/-- Four-digit zero-padded decimal rendering. -/
def pad4 (n : Nat) : List Char :=
  pad2 (n / 100) ++ pad2 (n % 100)

/-- Character list of the ISO-8601 UTC rendering
`YYYY-MM-DDTHH:MM:SSZ` of a civil time. -/
def isoUtcChars (y m d hh mi ss : Nat) : List Char :=
  pad4 y ++ '-' :: (pad2 m ++ '-' :: (pad2 d ++ 'T' ::
    (pad2 hh ++ ':' :: (pad2 mi ++ ':' :: (pad2 ss ++ ['Z'])))))

/-- The ISO-8601 UTC string `YYYY-MM-DDTHH:MM:SSZ` of a civil time. -/
def isoUtcString (y m d hh mi ss : Nat) : String :=
  String.mk (isoUtcChars y m d hh mi ss)

/-- An address block (`city`, `stateOrProvinceCode`, `postalCode`), each
field possibly absent. -/
structure Address where
  city : Option String
  stateOrProvinceCode : Option String
  postalCode : Option String
deriving DecidableEq, Repr

/-- The empty address, modelling the `{}` default of `dict.get`. -/
def emptyAddress : Address := ⟨none, none, none⟩

/-- A `specialHandlings` entry; only its `type` tag matters. -/
structure Handling where
  type : Option String
deriving DecidableEq, Repr

/-- A `datesOrTimes` entry. -/
structure DateOrTime where
  type : Option String
  dateOrTimestamp : Option String
deriving DecidableEq, Repr

/-- An `events` entry.  `numberLong` is the `timestamp.$numberLong` string
when both levels are present, `none` when either is missing. -/
structure Event where
  eventType : Option String
  numberLong : Option String
  address : Option Address
deriving DecidableEq, Repr

/-- The first-track-detail block of a raw record: the only fields either
implementation reads. -/
structure TrackDetail where
  trackingNumber : Option String
  shipmentWeightValue : Option String
  specialHandlings : List Handling
  datesOrTimes : List DateOrTime
  events : List Event
  shipperAddress : Option Address
  destinationAddress : Option Address
deriving DecidableEq, Repr

/-- A raw shipment record; an absent or null `trackDetails` field is the
empty list (both implementations coalesce it before testing emptiness). -/
structure RawRecord where
  trackDetails : List TrackDetail
deriving DecidableEq, Repr

/-- Last-write-wins lookup in the `dt_map` the script builds from
`datesOrTimes`, skipping entries whose type or value is missing or empty
(the `if t and val` guard). -/
def dtLookup (l : List DateOrTime) (key : String) : Option String :=
  (l.filterMap fun e =>
    match e.type, e.dateOrTimestamp with
    | some t, some v => if t = key ∧ t ≠ "" ∧ v ≠ "" then some v else none
    | _, _ => none).getLast?

/-- One flat output row of the script implementation.  The two datetime
fields hold the IST-aware datetimes the script formats into the row. -/
structure Row where
  tracking_number : String
  payment_type : String
  pickup_dt : ZonedDT
  delivery_dt : ZonedDT
  days_taken : Int
  shipment_weight : String
  pickup_pincode : String
  pickup_city : String
  pickup_state : String
  drop_pincode : String
  drop_city : String
  drop_state : String
  delivery_attempts : Nat
deriving DecidableEq, Repr

/-- The script's event loop collecting OD dates and the (last-written) DL
date: events whose `$numberLong` is missing or empty are skipped, an
unparseable one raises `ValueError` inside `millis_to_ist`. -/
def scanEv : List Event → Finset Int → Option Int → Except String (Finset Int × Option Int)
  | [], od, dl => .ok (od, dl)
  | ev :: rest, od, dl =>
    match ev.numberLong with
    | none => scanEv rest od dl
    | some ms =>
      if ms = "" then scanEv rest od dl
      else
        match pyInt ms with
        | none => .error "ValueError: invalid literal for int"
        | some m =>
          let dt := istDateOfMs m
          if ev.eventType = some "OD" then scanEv rest (insert dt od) dl
          else if ev.eventType = some "DL" then scanEv rest od (some dt)
          else scanEv rest od dl

/-- The script's attempt count from the collected OD-date set and DL date:
`len(od_dates)` plus one when a DL date exists and is not in the set. -/
def attemptsOf (od : Finset Int) (dl : Option Int) : Nat :=
  od.card + (match dl with
             | some x => if x ∈ od then 0 else 1
             | none => 0)

/-- The script's pickup-pincode scan: first `PU` event, then
`ev.get("address", {}).get("postalCode")`. -/
def puPinOf (evs : List Event) : Option String :=
  match evs.find? fun e => e.eventType = some "PU" with
  | some ev => (ev.address.getD emptyAddress).postalCode
  | none => none

/-- Python truthiness of an optional string (`None` and `""` are falsy). -/
def truthyStr : Option String → Bool
  | some s => s ≠ ""
  | none => false

/-- Result of processing one raw record in the script's loop body. -/
inductive StepResult where
  | skip
  | err (msg : String)
  | emit (row : Row)
deriving DecidableEq, Repr

/-- Embeds the per-record body of `process_shipments`
(`solution_script.py`), in source order: first track block assumed given,
payment flag, weight, addresses, `dt_map` lookups with the
missing-timestamp skip, ISO parsing of both timestamps, calendar-day
difference, event scan, attempt count, PU pincode with shipper fallback. -/
def processDetail (det : TrackDetail) : StepResult :=
  let tn := det.trackingNumber.getD ""
  let payment := if det.specialHandlings.any fun h => h.type = some "COD" then "COD" else "Prepaid"
  let weight := det.shipmentWeightValue.getD ""
  let ship := det.shipperAddress.getD emptyAddress
  let dest := det.destinationAddress.getD emptyAddress
  let pickupRaw := dtLookup det.datesOrTimes "ACTUAL_PICKUP"
  let deliveryRaw := dtLookup det.datesOrTimes "ACTUAL_DELIVERY"
  if truthyStr pickupRaw ∧ truthyStr deliveryRaw then
    match parse_iso_to_ist (pickupRaw.getD ""), parse_iso_to_ist (deliveryRaw.getD "") with
    | some pDt, some dDt =>
      let days := localDayOf dDt - localDayOf pDt
      match scanEv det.events ∅ none with
      | .error e => .err e
      | .ok (odDates, dlDate) =>
        let att := attemptsOf odDates dlDate
        let puPin := puPinOf det.events
        .emit
          { tracking_number := tn
            payment_type := payment
            pickup_dt := pDt
            delivery_dt := dDt
            days_taken := days
            shipment_weight := weight
            pickup_pincode :=
              match puPin with
              | some p => if p = "" then ship.postalCode.getD "" else p
              | none => ship.postalCode.getD ""
            pickup_city := ship.city.getD ""
            pickup_state := ship.stateOrProvinceCode.getD ""
            drop_pincode := dest.postalCode.getD ""
            drop_city := dest.city.getD ""
            drop_state := dest.stateOrProvinceCode.getD ""
            delivery_attempts := att }
    | _, _ => .err "ValueError: iso parse"
  else
    .skip

/-- Embeds one iteration of the script's loop: empty `trackDetails`
means skip, otherwise the first block is processed. -/
def processRecord (rec : RawRecord) : StepResult :=
  match rec.trackDetails with
  | [] => .skip
  | det :: _ => processDetail det

/-- Embeds `process_shipments` (`solution_script.py`): the loop over raw
records producing `flat_rows`, `days_list`, `attempts_list`; an exception
in any iteration aborts the run. -/
def processShipments : List RawRecord → Except String (List Row × List Int × List Nat)
  | [] => .ok ([], [], [])
  | r :: rest =>
    match processRecord r with
    | .err e => .error e
    | .skip => processShipments rest
    | .emit row =>
      match processShipments rest with
      | .error e => .error e
      | .ok (rows, days, atts) => .ok (row :: rows, row.days_taken :: days, row.delivery_attempts :: atts)

/-- One flat row of the pandas implementation (`flatten_shipments`
output): raw pickup/delivery strings plus the event-derived columns that
`compute_days_and_attempts` consumes later. -/
structure FlatRow where
  tracking_number : String
  payment_type : String
  pickup_ts : Option String
  delivery_ts : Option String
  od_timestamps : List Int
  dl_timestamp : Int
  shipment_weight : String
  pickup_pincode : Option String
  pickup_city : Option String
  pickup_state : Option String
  drop_pincode : Option String
  drop_city : Option String
  drop_state : Option String
deriving DecidableEq, Repr

/-- The pandas dict comprehension over `datesOrTimes`: every entry is
indexed directly (`entry["type"]`, `entry["dateOrTimestamp"]`), so a
missing key raises. -/
def dtPairsPandas : List DateOrTime → Except String (List (String × String))
  | [] => .ok []
  | e :: rest =>
    match e.type, e.dateOrTimestamp with
    | some t, some v =>
      match dtPairsPandas rest with
      | .error msg => .error msg
      | .ok l => .ok ((t, v) :: l)
    | _, _ => .error "KeyError: datesOrTimes entry"

/-- Last-write-wins dict lookup over the collected pairs. -/
def lastValueFor (l : List (String × String)) (key : String) : Option String :=
  (l.filterMap fun p => if p.1 = key then some p.2 else none).getLast?

/-- The pandas OD comprehension: `int(e["timestamp"]["$numberLong"])` for
every `OD`-typed event, raising on a missing key or unparseable value. -/
def odTsPandas : List Event → Except String (List Int)
  | [] => .ok []
  | ev :: rest =>
    if ev.eventType = some "OD" then
      match ev.numberLong with
      | none => .error "KeyError: timestamp"
      | some ms =>
        match pyInt ms with
        | none => .error "ValueError: invalid literal for int"
        | some m =>
          match odTsPandas rest with
          | .error msg => .error msg
          | .ok l => .ok (m :: l)
    else odTsPandas rest

/-- The pandas DL extraction: `int(next(... if eventType == "DL"))`,
raising `StopIteration` when no `DL` event exists. -/
def dlTsPandas (evs : List Event) : Except String Int :=
  match evs.find? fun e => e.eventType = some "DL" with
  | none => .error "StopIteration"
  | some ev =>
    match ev.numberLong with
    | none => .error "KeyError: timestamp"
    | some ms =>
      match pyInt ms with
      | none => .error "ValueError: invalid literal for int"
      | some m => .ok m

/-- The pandas PU pincode: `pu_event["address"].get("postalCode")` when a
`PU` event exists (raising when it lacks an `address`), else `None`. -/
def puPinPandas (evs : List Event) : Except String (Option String) :=
  match evs.find? fun e => e.eventType = some "PU" with
  | none => .ok none
  | some ev =>
    match ev.address with
    | none => .error "KeyError: address"
    | some a => .ok a.postalCode

/-- Embeds the per-record body of `flatten_shipments`
(`solution_pandas.py`), in source evaluation order. -/
def flattenDetail (det : TrackDetail) : Except String FlatRow :=
  match det.trackingNumber with
  | none => .error "KeyError: trackingNumber"
  | some tn =>
  match det.shipmentWeightValue with
  | none => .error "KeyError: shipmentWeight"
  | some weight =>
  let payment := if det.specialHandlings.any fun h => h.type = some "COD" then "COD" else "Prepaid"
  match dtPairsPandas det.datesOrTimes with
  | .error msg => .error msg
  | .ok pairs =>
  match odTsPandas det.events with
  | .error msg => .error msg
  | .ok odTs =>
  match dlTsPandas det.events with
  | .error msg => .error msg
  | .ok dlTs =>
  match det.shipperAddress with
  | none => .error "KeyError: shipperAddress"
  | some ship =>
  match det.destinationAddress with
  | none => .error "KeyError: destinationAddress"
  | some dest =>
  match puPinPandas det.events with
  | .error msg => .error msg
  | .ok pin =>
    .ok
      { tracking_number := tn
        payment_type := payment
        pickup_ts := lastValueFor pairs "ACTUAL_PICKUP"
        delivery_ts := lastValueFor pairs "ACTUAL_DELIVERY"
        od_timestamps := odTs
        dl_timestamp := dlTs
        shipment_weight := weight
        pickup_pincode := pin
        pickup_city := ship.city
        pickup_state := ship.stateOrProvinceCode
        drop_pincode := dest.postalCode
        drop_city := dest.city
        drop_state := dest.stateOrProvinceCode }

/-- Embeds `flatten_shipments` (`solution_pandas.py`): records with an
empty `trackDetails` list are skipped, the rest flatten their first
block; an exception aborts the run. -/
def flatten_shipments : List RawRecord → Except String (List FlatRow)
  | [] => .ok []
  | r :: rest =>
    match r.trackDetails with
    | [] => flatten_shipments rest
    | det :: _ =>
      match flattenDetail det with
      | .error msg => .error msg
      | .ok row =>
        match flatten_shipments rest with
        | .error msg => .error msg
        | .ok l => .ok (row :: l)

/-- Embeds `count_attempts` (`solution_pandas.py`): the set of IST dates
of the OD timestamps, plus one when the DL event's IST date is not in
that set. -/
def count_attempts (odTs : List Int) (dlTs : Int) : Nat :=
  let odDates := (odTs.map istDateOfMs).toFinset
  let dlDate := istDateOfMs dlTs
  odDates.card + (if dlDate ∈ odDates then 0 else 1)

/-- Instant of pandas `.dt.normalize()`: midnight of the datetime's local
calendar day, expressed back as an absolute instant. -/
def normalizeInstant (z : ZonedDT) : Int :=
  localDayOf z * 86400000 - z.offsetMin * 60000

/-- Embeds the `days_taken` column of `compute_days_and_attempts`:
`(delivery.normalize() - pickup.normalize()).days`. -/
def pandasDaysTaken (p d : ZonedDT) : Int :=
  (normalizeInstant d - normalizeInstant p).fdiv 86400000

/-- Embeds `statistics.mean`: errors on an empty column. -/
def statsMean (l : List Int) : Except String Rat :=
  if l.isEmpty then .error "StatisticsError: mean requires at least one data point"
  else .ok ((l.sum : Rat) / (l.length : Rat))

/-- Insertion into a sorted list of ints. -/
def insertSorted (x : Int) : List Int → List Int
  | [] => [x]
  | y :: ys => if x ≤ y then x :: y :: ys else y :: insertSorted x ys

/-- Sorting as Python's `sorted` produces it for integers. -/
def sortInts (l : List Int) : List Int :=
  l.foldr insertSorted []

/-- Embeds `statistics.median`: sort, middle element for odd length,
mean of the two middle elements for even length, error when empty. -/
def statsMedian (l : List Int) : Except String Rat :=
  let s := sortInts l
  let n := s.length
  if n = 0 then .error "StatisticsError: no median for empty data"
  else if n % 2 = 1 then .ok ((s.getD (n / 2) 0 : Int) : Rat)
  else .ok (((s.getD (n / 2 - 1) 0 + s.getD (n / 2) 0 : Int) : Rat) / 2)

/-- Distinct values of a list in order of first occurrence, as the keys
of `collections.Counter` are ordered. -/
def firstKeys : List Int → List Int
  | [] => []
  | a :: l => a :: firstKeys (l.filter fun x => x ≠ a)
termination_by l => l.length
decreasing_by
  simp only [List.length_cons]
  exact Nat.lt_succ_of_le (List.length_filter_le _ _)

/-- Selection done by `Counter(data).most_common(1)`: walk the keys in
first-occurrence order and keep the current key unless a later one is
strictly more frequent, so the earliest key among maximal counts wins. -/
def pickMode (l : List Int) : List Int → Option Int
  | [] => none
  | k :: ks =>
    match pickMode l ks with
    | none => some k
    | some m => if l.count m > l.count k then some m else some k

/-- Embeds `statistics.mode` (Python ≥ 3.8 semantics): the first mode
encountered; `StatisticsError` only on empty data, never on ties. -/
def statsMode (l : List Int) : Except String Int :=
  match pickMode l (firstKeys l) with
  | none => .error "StatisticsError: no mode for empty data"
  | some m => .ok m

/-- Highest frequency attained by any value of the list. -/
def maxCount (l : List Int) : Nat :=
  (l.map fun v => l.count v).foldr max 0

/-- More than one distinct value is tied for highest frequency. -/
def hasModeTie (l : List Int) : Bool :=
  2 ≤ (l.dedup.filter fun v => l.count v = maxCount l).length

/-- One row of the summary-statistics output. -/
structure SummaryRow where
  metric : String
  mean : Rat
  median : Rat
  mode : Int
deriving DecidableEq, Repr

/-- Embeds `write_summary_csv` (`solution_script.py`): builds the two
summary rows; any `StatisticsError` aborts before anything is written,
evaluating the `days_taken` statistics before the `delivery_attempts`
ones. -/
def write_summary_csv (days atts : List Int) : Except String (List SummaryRow) :=
  match statsMean days with
  | .error msg => .error msg
  | .ok me1 =>
  match statsMedian days with
  | .error msg => .error msg
  | .ok md1 =>
  match statsMode days with
  | .error msg => .error msg
  | .ok mo1 =>
  match statsMean atts with
  | .error msg => .error msg
  | .ok me2 =>
  match statsMedian atts with
  | .error msg => .error msg
  | .ok md2 =>
  match statsMode atts with
  | .error msg => .error msg
  | .ok mo2 =>
    .ok [⟨"days_taken", me1, md1, mo1⟩, ⟨"delivery_attempts", me2, md2, mo2⟩]

/-- Embeds the summary block of `write_outputs` (`solution_pandas.py`):
same statistics, evaluated in the dict-literal order (both means, both
medians, both modes). -/
def write_summary_pandas (days atts : List Int) : Except String (List SummaryRow) :=
  match statsMean days with
  | .error msg => .error msg
  | .ok me1 =>
  match statsMean atts with
  | .error msg => .error msg
  | .ok me2 =>
  match statsMedian days with
  | .error msg => .error msg
  | .ok md1 =>
  match statsMedian atts with
  | .error msg => .error msg
  | .ok md2 =>
  match statsMode days with
  | .error msg => .error msg
  | .ok mo1 =>
  match statsMode atts with
  | .error msg => .error msg
  | .ok mo2 =>
    .ok [⟨"days_taken", me1, md1, mo1⟩, ⟨"delivery_attempts", me2, md2, mo2⟩]

/-- Claim-side view of the script's event scan: IST dates of the events
the scan treats as OD attempts (present, nonempty, parseable timestamp). -/
def odDatesList (evs : List Event) : List Int :=
  evs.filterMap fun ev =>
    match ev.numberLong with
    | some ms => if ms ≠ "" ∧ ev.eventType = some "OD" then (pyInt ms).map istDateOfMs else none
    | none => none

/-- Claim-side view of the DL dates the script's scan writes, in order. -/
def dlDatesList (evs : List Event) : List Int :=
  evs.filterMap fun ev =>
    match ev.numberLong with
    | some ms => if ms ≠ "" ∧ ev.eventType = some "DL" then (pyInt ms).map istDateOfMs else none
    | none => none

/-- Last element of a list when there is one, a default otherwise
(last-write-wins resolution). -/
def lastOr (l : List Int) (d : Option Int) : Option Int :=
  match l.getLast? with
  | some x => some x
  | none => d

/-- Row of the script's flat output for one raw record, when that record
emits one. -/
def emittedRowOf (rec : RawRecord) : Option Row :=
  match processRecord rec with
  | .emit row => some row
  | _ => none

/-- Number of flat rows of a script run, when the run succeeded. -/
def emittedCountScript (res : Except String (List Row × List Int × List Nat)) : Option Nat :=
  match res with
  | .ok (rows, _, _) => some rows.length
  | .error _ => none

/-- Decidable equality for `Except`, used to evaluate concrete runs. -/
instance {e a : Type} [DecidableEq e] [DecidableEq a] : DecidableEq (Except e a) := fun x y =>
  match x, y with
  | .error u, .error v =>
      if h : u = v then isTrue (by rw [h]) else isFalse fun hc => h (Except.error.inj hc)
  | .error _, .ok _ => isFalse Except.noConfusion
  | .ok _, .error _ => isFalse Except.noConfusion
  | .ok u, .ok v =>
      if h : u = v then isTrue (by rw [h]) else isFalse fun hc => h (Except.ok.inj hc)

/-- Flat row of the pandas flattening for one raw record, when it
produces one. -/
def flatRowOf (rec : RawRecord) : Option FlatRow :=
  match rec.trackDetails with
  | [] => none
  | det :: _ => (flattenDetail det).toOption

/-- IST date of the last well-formed DL event, the script's resolution. -/
def dlDateLast (evs : List Event) : Option Int :=
  (dlDatesList evs).getLast?

/-- Concrete shipment for exercising the attempt count: PU event, OD
events on two distinct IST dates, DL on the second OD date. -/
def detW1 : TrackDetail :=
  { trackingNumber := some "TN1001"
    shipmentWeightValue := some "2.5"
    specialHandlings := [⟨some "COD"⟩]
    datesOrTimes := [⟨some "ACTUAL_PICKUP", some "2024-01-01T10:00:00Z"⟩,
                     ⟨some "ACTUAL_DELIVERY", some "2024-01-03T05:00:00+05:30"⟩]
    events := [⟨some "PU", some "1704103200000", some ⟨none, none, some "110042"⟩⟩,
               ⟨some "OD", some "1704110400000", none⟩,
               ⟨some "OD", some "1704196800000", none⟩,
               ⟨some "DL", some "1704200400000", none⟩]
    shipperAddress := some ⟨some "New Delhi", some "DL", some "110001"⟩
    destinationAddress := some ⟨some "Mumbai", some "MH", some "400001"⟩ }

/-- The flat row the script emits for `detW1`. -/
def rowW1 : Row :=
  ⟨"TN1001", "COD", ⟨1704103200000, 330⟩, ⟨1704238200000, 330⟩, 2, "2.5",
    "110042", "New Delhi", "DL", "400001", "Mumbai", "MH", 2⟩

/-- Concrete shipment whose first track block has one OD event and no DL
event at all. -/
def detC3 : TrackDetail :=
  { trackingNumber := some "TN3003"
    shipmentWeightValue := some "1.2"
    specialHandlings := []
    datesOrTimes := [⟨some "ACTUAL_PICKUP", some "2024-01-01T10:00:00Z"⟩,
                     ⟨some "ACTUAL_DELIVERY", some "2024-01-03T05:00:00+05:30"⟩]
    events := [⟨some "OD", some "1704110400000", none⟩]
    shipperAddress := some ⟨some "New Delhi", some "DL", some "110001"⟩
    destinationAddress := some ⟨some "Mumbai", some "MH", some "400001"⟩ }

/-- The flat row the script emits for `detC3` despite the missing DL. -/
def rowC3 : Row :=
  ⟨"TN3003", "Prepaid", ⟨1704103200000, 330⟩, ⟨1704238200000, 330⟩, 2, "1.2",
    "110001", "New Delhi", "DL", "400001", "Mumbai", "MH", 1⟩

/-- Concrete shipment for the transit-days computation. -/
def detW5 : TrackDetail :=
  { trackingNumber := some "TN5005"
    shipmentWeightValue := some "2.5"
    specialHandlings := []
    datesOrTimes := [⟨some "ACTUAL_PICKUP", some "2024-01-01T10:00:00Z"⟩,
                     ⟨some "ACTUAL_DELIVERY", some "2024-01-03T05:00:00+05:30"⟩]
    events := [⟨some "DL", some "1704200400000", none⟩]
    shipperAddress := some ⟨some "New Delhi", some "DL", some "110001"⟩
    destinationAddress := some ⟨some "Mumbai", some "MH", some "400001"⟩ }

/-- The flat row the script emits for `detW5`. -/
def rowW5 : Row :=
  ⟨"TN5005", "Prepaid", ⟨1704103200000, 330⟩, ⟨1704238200000, 330⟩, 2, "2.5",
    "110001", "New Delhi", "DL", "400001", "Mumbai", "MH", 1⟩

/-- Concrete shipment with no PU event but a shipper postal code. -/
def detC6 : TrackDetail :=
  { trackingNumber := some "TN6006"
    shipmentWeightValue := some "0.8"
    specialHandlings := []
    datesOrTimes := [⟨some "ACTUAL_PICKUP", some "2024-01-01T10:00:00Z"⟩,
                     ⟨some "ACTUAL_DELIVERY", some "2024-01-03T05:00:00+05:30"⟩]
    events := [⟨some "DL", some "1704200400000", none⟩]
    shipperAddress := some ⟨some "New Delhi", some "DL", some "110001"⟩
    destinationAddress := some ⟨some "Mumbai", some "MH", some "400001"⟩ }

/-- The pandas flat row for `detC6`: its pincode is null. -/
def flatC6 : FlatRow :=
  ⟨"TN6006", "Prepaid", some "2024-01-01T10:00:00Z", some "2024-01-03T05:00:00+05:30",
    [], 1704200400000, "0.8", none, some "New Delhi", some "DL",
    some "400001", some "Mumbai", some "MH"⟩

/-- The script flat row for `detC6`: its pincode fell back to the
shipper's. -/
def rowC6s : Row :=
  ⟨"TN6006", "Prepaid", ⟨1704103200000, 330⟩, ⟨1704238200000, 330⟩, 2, "0.8",
    "110001", "New Delhi", "DL", "400001", "Mumbai", "MH", 1⟩

/-- Concrete shipment with a PU event carrying a postal code. -/
def detW6 : TrackDetail :=
  { trackingNumber := some "TN6606"
    shipmentWeightValue := some "1.5"
    specialHandlings := []
    datesOrTimes := [⟨some "ACTUAL_PICKUP", some "2024-01-01T10:00:00Z"⟩,
                     ⟨some "ACTUAL_DELIVERY", some "2024-01-03T05:00:00+05:30"⟩]
    events := [⟨some "PU", some "1704103200000", some ⟨none, none, some "110042"⟩⟩,
               ⟨some "DL", some "1704200400000", none⟩]
    shipperAddress := some ⟨some "New Delhi", some "DL", some "110001"⟩
    destinationAddress := some ⟨some "Mumbai", some "MH", some "400001"⟩ }

/-- The flat row the script emits for `detW6`. -/
def rowW6 : Row :=
  ⟨"TN6606", "Prepaid", ⟨1704103200000, 330⟩, ⟨1704238200000, 330⟩, 2, "1.5",
    "110042", "New Delhi", "DL", "400001", "Mumbai", "MH", 1⟩

/-- Concrete shipment for the ordering and alignment claim. -/
def detW10 : TrackDetail :=
  { trackingNumber := some "TN1010"
    shipmentWeightValue := some "0.8"
    specialHandlings := []
    datesOrTimes := [⟨some "ACTUAL_PICKUP", some "2024-01-01T10:00:00Z"⟩,
                     ⟨some "ACTUAL_DELIVERY", some "2024-01-03T05:00:00+05:30"⟩]
    events := [⟨some "DL", some "1704200400000", none⟩]
    shipperAddress := some ⟨some "New Delhi", some "DL", some "110001"⟩
    destinationAddress := some ⟨some "Mumbai", some "MH", some "400001"⟩ }

/-- The flat row the script emits for `detW10`. -/
def rowW10 : Row :=
  ⟨"TN1010", "Prepaid", ⟨1704103200000, 330⟩, ⟨1704238200000, 330⟩, 2, "0.8",
    "110001", "New Delhi", "DL", "400001", "Mumbai", "MH", 1⟩

/-- The string list of a packed character list, definitionally. -/
theorem toList_mk (l : List Char) : (String.mk l).toList = l := rfl

/-- Decimal digit characters decode to the digit they render. -/
theorem charToDigit_digitChar : ∀ dg : Nat, dg < 10 → charToDigit (Nat.digitChar dg) = some dg := by
  decide

/-- Two-digit rendering parses back, leaving the rest of the input. -/
theorem parse2_pad2 (n : Nat) (h : n < 100) (r : List Char) :
    parse2 (pad2 n ++ r) = some (n, r) := by
  have h1 : n / 10 < 10 := Nat.div_lt_of_lt_mul h
  have h2 : n % 10 < 10 := Nat.mod_lt _ (by norm_num)
  have hd : n / 10 % 10 = n / 10 := Nat.mod_eq_of_lt h1
  have e1 := charToDigit_digitChar _ h1
  have e2 := charToDigit_digitChar _ h2
  simp only [pad2, hd, List.cons_append, List.nil_append, parse2, e1, e2]
  rw [Nat.div_add_mod]

/-- Four-digit rendering parses back, leaving the rest of the input. -/
theorem parse4_pad4 (n : Nat) (h : n < 10000) (r : List Char) :
    parse4 (pad4 n ++ r) = some (n, r) := by
  have h1 : n / 100 < 100 := Nat.div_lt_of_lt_mul h
  have h2 : n % 100 < 100 := Nat.mod_lt _ (by norm_num)
  simp only [parse4, pad4, List.append_assoc, parse2_pad2 _ h1, parse2_pad2 _ h2]
  rw [Nat.div_add_mod]

/-- The formatter's output is parsed back exactly, with a UTC offset. -/
theorem isoparseChars_isoUtc (y m d hh mi ss : Nat) (h : validCivil y m d hh mi ss) :
    isoparseChars (isoUtcChars y m d hh mi ss) = some ⟨y, m, d, hh, mi, ss, some 0⟩ := by
  obtain ⟨h1, h2, h3, h4, h5, h6, h7, h8, h9⟩ := h
  have hy : y < 10000 := by omega
  have hm : m < 100 := by omega
  have hdm : daysInMonth y m ≤ 31 := by
    unfold daysInMonth; split
    · split <;> omega
    · split <;> omega
  have hd : d < 100 := by omega
  have hhh : hh < 100 := by omega
  have hmi : mi < 100 := by omega
  have hss : ss < 100 := by omega
  have hv : validCivil y m d hh mi ss := ⟨h1, h2, h3, h4, h5, h6, h7, h8, h9⟩
  simp only [isoparseChars, isoUtcChars, parse4_pad4 _ hy, parse2_pad2 _ hm,
    parse2_pad2 _ hd, parse2_pad2 _ hhh, parse2_pad2 _ hmi, parse2_pad2 _ hss,
    expectChar, parseOffset, mkIso, List.isEmpty_nil, if_pos hv,
    eq_self_iff_true, if_true]

/-- The formatter's output is not a digit-only string. -/
theorem isoUtcString_not_digits (y m d hh mi ss : Nat) :
    isDigitStringB (isoUtcString y m d hh mi ss) = false := by
  simp [isDigitStringB, isoUtcString, isoUtcChars, pad4, pad2, toList_mk]

/-- Last-write-wins resolution consumes the head into the default slot. -/
theorem lastOr_cons (x : Int) (l : List Int) (d : Option Int) :
    lastOr (x :: l) d = lastOr l (some x) := by
  cases l with
  | nil => simp [lastOr]
  | cons y ys =>
      unfold lastOr
      rw [List.getLast?_cons_cons]
      cases hg : (y :: ys).getLast? with
      | none => simp [List.getLast?_eq_none_iff] at hg
      | some z => rfl

/-- A successful event scan extends the starting OD-date set with the IST
dates of exactly the well-formed OD events and resolves the DL date by
last write wins. -/
theorem scanEv_ok (evs : List Event) :
    ∀ od0 dl0 od dl, scanEv evs od0 dl0 = .ok (od, dl) →
      od = od0 ∪ (odDatesList evs).toFinset ∧ dl = lastOr (dlDatesList evs) dl0 := by
  induction evs with
  | nil =>
      intro od0 dl0 od dl h
      simp only [scanEv, Except.ok.injEq, Prod.mk.injEq] at h
      simp [odDatesList, dlDatesList, lastOr, ← h.1, ← h.2]
  | cons ev rest ih =>
      intro od0 dl0 od dl h
      simp only [scanEv] at h
      cases hnl : ev.numberLong with
      | none =>
          rw [hnl] at h
          obtain ⟨hod, hdl⟩ := ih od0 dl0 od dl h
          refine ⟨?_, ?_⟩
          · rw [hod]
            have he : odDatesList (ev :: rest) = odDatesList rest := by
              simp only [odDatesList, List.filterMap_cons, hnl]
            rw [he]
          · rw [hdl]
            have he : dlDatesList (ev :: rest) = dlDatesList rest := by
              simp only [dlDatesList, List.filterMap_cons, hnl]
            rw [he]
      | some ms =>
          rw [hnl] at h
          dsimp only at h
          by_cases hms : ms = ""
          · rw [if_pos hms] at h
            obtain ⟨hod, hdl⟩ := ih od0 dl0 od dl h
            refine ⟨?_, ?_⟩
            · rw [hod]
              have he : odDatesList (ev :: rest) = odDatesList rest := by
                simp [odDatesList, List.filterMap_cons, hnl, hms]
              rw [he]
            · rw [hdl]
              have he : dlDatesList (ev :: rest) = dlDatesList rest := by
                simp [dlDatesList, List.filterMap_cons, hnl, hms]
              rw [he]
          · rw [if_neg hms] at h
            cases hpi : pyInt ms with
            | none => rw [hpi] at h; exact absurd h (by simp)
            | some m =>
                rw [hpi] at h
                dsimp only at h
                by_cases hodty : ev.eventType = some "OD"
                · rw [if_pos hodty] at h
                  obtain ⟨hod, hdl⟩ := ih _ _ od dl h
                  refine ⟨?_, ?_⟩
                  · rw [hod]
                    have he : odDatesList (ev :: rest) = istDateOfMs m :: odDatesList rest := by
                      simp [odDatesList, List.filterMap_cons, hnl, hms, hodty, hpi]
                    rw [he, List.toFinset_cons, Finset.union_insert, Finset.insert_union]
                  · rw [hdl]
                    have he : dlDatesList (ev :: rest) = dlDatesList rest := by
                      simp [dlDatesList, List.filterMap_cons, hnl, hms, hodty]
                    rw [he]
                · rw [if_neg hodty] at h
                  by_cases hdlty : ev.eventType = some "DL"
                  · rw [if_pos hdlty] at h
                    obtain ⟨hod, hdl⟩ := ih _ _ od dl h
                    refine ⟨?_, ?_⟩
                    · rw [hod]
                      have he : odDatesList (ev :: rest) = odDatesList rest := by
                        simp [odDatesList, List.filterMap_cons, hnl, hms, hodty]
                      rw [he]
                    · rw [hdl]
                      have he : dlDatesList (ev :: rest) = istDateOfMs m :: dlDatesList rest := by
                        simp [dlDatesList, List.filterMap_cons, hnl, hms, hdlty, hpi]
                      rw [he, lastOr_cons]
                  · rw [if_neg hdlty] at h
                    obtain ⟨hod, hdl⟩ := ih od0 dl0 od dl h
                    refine ⟨?_, ?_⟩
                    · rw [hod]
                      have he : odDatesList (ev :: rest) = odDatesList rest := by
                        simp [odDatesList, List.filterMap_cons, hnl, hms, hodty]
                      rw [he]
                    · rw [hdl]
                      have he : dlDatesList (ev :: rest) = dlDatesList rest := by
                        simp [dlDatesList, List.filterMap_cons, hnl, hms, hdlty]
                      rw [he]

/-- A successful script run yields exactly the rows of the records that
emit one, in input order, with the numeric columns their row-wise
projections. -/
theorem processShipments_ok (raw : List RawRecord) :
    ∀ rows days atts, processShipments raw = .ok (rows, days, atts) →
      rows = raw.filterMap emittedRowOf ∧
        days = rows.map Row.days_taken ∧ atts = rows.map Row.delivery_attempts := by
  induction raw with
  | nil =>
      intro rows days atts h
      simp only [processShipments, Except.ok.injEq, Prod.mk.injEq] at h
      simp [← h.1, ← h.2.1, ← h.2.2]
  | cons r rest ih =>
      intro rows days atts h
      simp only [processShipments] at h
      cases hpr : processRecord r with
      | err msg => rw [hpr] at h; exact absurd h (by simp)
      | skip =>
          rw [hpr] at h
          obtain ⟨h1, h2, h3⟩ := ih rows days atts h
          refine ⟨?_, h2, h3⟩
          rw [h1, List.filterMap_cons]
          simp [emittedRowOf, hpr]
      | emit row =>
          rw [hpr] at h
          dsimp only at h
          cases hps : processShipments rest with
          | error msg => rw [hps] at h; exact absurd h (by simp)
          | ok t =>
              obtain ⟨rows', days', atts'⟩ := t
              rw [hps] at h
              dsimp only at h
              simp only [Except.ok.injEq, Prod.mk.injEq] at h
              obtain ⟨hr, hd, ha⟩ := h
              obtain ⟨h1, h2, h3⟩ := ih rows' days' atts' hps
              refine ⟨?_, ?_, ?_⟩
              · rw [← hr, h1, List.filterMap_cons]
                simp [emittedRowOf, hpr]
              · rw [← hd, ← hr, h2]
                simp
              · rw [← ha, ← hr, h3]
                simp
  
/-- A successful pandas flattening yields exactly the flat rows of the
records that produce one, in input order. -/
theorem flatten_shipments_ok (raw : List RawRecord) :
    ∀ rows, flatten_shipments raw = .ok rows → rows = raw.filterMap flatRowOf := by
  induction raw with
  | nil =>
      intro rows h
      simp only [flatten_shipments, Except.ok.injEq] at h
      simp [← h]
  | cons r rest ih =>
      intro rows h
      simp only [flatten_shipments] at h
      cases htd : r.trackDetails with
      | nil =>
          rw [htd] at h
          rw [ih rows h, List.filterMap_cons]
          simp [flatRowOf, htd]
      | cons det more =>
          rw [htd] at h
          dsimp only at h
          cases hfd : flattenDetail det with
          | error msg => rw [hfd] at h; exact absurd h (by simp)
          | ok row =>
              rw [hfd] at h
              dsimp only at h
              cases hfs : flatten_shipments rest with
              | error msg => rw [hfs] at h; exact absurd h (by simp)
              | ok l =>
                  rw [hfs] at h
                  dsimp only at h
                  simp only [Except.ok.injEq] at h
                  rw [← h, ih l hfs, List.filterMap_cons]
                  simp [flatRowOf, htd, hfd, Except.toOption]

/-- A truthy optional string is a present, nonempty string. -/
theorem truthyStr_eq (o : Option String) (h : truthyStr o = true) :
    ∃ s, o = some s ∧ s ≠ "" := by
  cases o with
  | none => simp [truthyStr] at h
  | some s => exact ⟨s, rfl, by simpa [truthyStr] using h⟩

/-- Inversion of the script's per-record body: an emitted row pins down
the looked-up timestamps, their parses, the event scan, and every derived
field of the row. -/
theorem processDetail_emit_inv (det : TrackDetail) (row : Row)
    (h : processDetail det = .emit row) :
    ∃ praw draw pz dz od dl,
      dtLookup det.datesOrTimes "ACTUAL_PICKUP" = some praw ∧ praw ≠ "" ∧
      dtLookup det.datesOrTimes "ACTUAL_DELIVERY" = some draw ∧ draw ≠ "" ∧
      parse_iso_to_ist praw = some pz ∧
      parse_iso_to_ist draw = some dz ∧
      scanEv det.events ∅ none = .ok (od, dl) ∧
      row.pickup_dt = pz ∧ row.delivery_dt = dz ∧
      row.days_taken = localDayOf dz - localDayOf pz ∧
      row.delivery_attempts = attemptsOf od dl ∧
      row.pickup_pincode =
        (match puPinOf det.events with
         | some p =>
             if p = "" then ((det.shipperAddress.getD emptyAddress).postalCode).getD "" else p
         | none => ((det.shipperAddress.getD emptyAddress).postalCode).getD "") := by
  simp only [processDetail] at h
  split at h
  case isFalse => exact absurd h (by simp)
  case isTrue hcond =>
    obtain ⟨hp, hd⟩ := hcond
    obtain ⟨praw, hpraw, hpne⟩ := truthyStr_eq _ hp
    obtain ⟨draw, hdraw, hdne⟩ := truthyStr_eq _ hd
    rw [hpraw, hdraw] at h
    dsimp only [Option.getD] at h
    split at h
    case h_2 => exact absurd h (by simp)
    case h_1 pz dz hpz hdz =>
      split at h
      case h_1 => exact absurd h (by simp)
      case h_2 od dl hscan =>
        refine ⟨praw, draw, pz, dz, od, dl, hpraw, hpne, hdraw, hdne, hpz, hdz, hscan,
          ?_, ?_, ?_, ?_, ?_⟩ <;> cases h <;> rfl

/-- Membership is preserved by first-occurrence deduplication. -/
theorem mem_firstKeys (l : List Int) : ∀ a, a ∈ firstKeys l ↔ a ∈ l := by
  induction l using firstKeys.induct with
  | case1 => intro a; simp [firstKeys]
  | case2 b rest ih =>
      intro a
      rw [firstKeys]
      by_cases hab : a = b
      · simp [hab]
      · rw [List.mem_cons, List.mem_cons, ih a, List.mem_filter]
        constructor
        · rintro (rfl | ⟨h2, _⟩)
          · exact Or.inl rfl
          · exact Or.inr h2
        · rintro (rfl | h2)
          · exact Or.inl rfl
          · exact Or.inr ⟨h2, by simpa using hab⟩

/-- First-occurrence deduplication of a nonempty list is nonempty. -/
theorem firstKeys_ne_nil (l : List Int) (h : l ≠ []) : firstKeys l ≠ [] := by
  cases l with
  | nil => exact absurd rfl h
  | cons a rest => rw [firstKeys]; simp

/-- The key walk returns `none` exactly on an empty key list. -/
theorem pickMode_eq_none (l : List Int) (keys : List Int) :
    pickMode l keys = none ↔ keys = [] := by
  cases keys with
  | nil => simp [pickMode]
  | cons k ks =>
      simp only [pickMode]
      cases pickMode l ks <;> simp only [List.cons_ne_nil, iff_false] <;> intro hc
      · exact Option.noConfusion hc
      · revert hc; split <;> intro hc <;> exact Option.noConfusion hc

/-- The selected key is a key and its count dominates every key's count. -/
theorem pickMode_spec (l : List Int) :
    ∀ keys m, pickMode l keys = some m →
      m ∈ keys ∧ ∀ k ∈ keys, l.count k ≤ l.count m := by
  intro keys
  induction keys with
  | nil => intro m h; simp [pickMode] at h
  | cons k ks ih =>
      intro m h
      simp only [pickMode] at h
      cases hp : pickMode l ks with
      | none =>
          rw [hp] at h
          dsimp only at h
          obtain rfl : k = m := by simpa using h
          have hks : ks = [] := (pickMode_eq_none l ks).mp hp
          subst hks
          exact ⟨by simp, by simp⟩
      | some m' =>
          rw [hp] at h
          dsimp only at h
          obtain ⟨hm', hall⟩ := ih m' hp
          by_cases hgt : l.count m' > l.count k
          · rw [if_pos hgt] at h
            obtain rfl : m' = m := by simpa using h
            refine ⟨by simp [hm'], ?_⟩
            intro x hx
            rcases List.mem_cons.mp hx with rfl | hx
            · exact Nat.le_of_lt hgt
            · exact hall x hx
          · rw [if_neg hgt] at h
            obtain rfl : k = m := by simpa using h
            refine ⟨by simp, ?_⟩
            intro x hx
            rcases List.mem_cons.mp hx with rfl | hx
            · exact Nat.le_refl _
            · exact Nat.le_trans (hall x hx) (Nat.le_of_not_lt hgt)

/-- Every element of a Nat list is bounded by its foldr-max. -/
theorem le_foldr_max (xs : List Nat) : ∀ x ∈ xs, x ≤ xs.foldr max 0 := by
  induction xs with
  | nil => simp
  | cons a rest ih =>
      intro x hx
      rcases List.mem_cons.mp hx with rfl | hx
      · exact Nat.le_max_left _ _
      · exact Nat.le_trans (ih x hx) (Nat.le_max_right _ _)

/-- The foldr-max of a Nat list is bounded by any common bound. -/
theorem foldr_max_le (xs : List Nat) (c : Nat) (h : ∀ x ∈ xs, x ≤ c) :
    xs.foldr max 0 ≤ c := by
  induction xs with
  | nil => simp
  | cons a rest ih =>
      simp only [List.foldr_cons]
      exact Nat.max_le.mpr ⟨h a (by simp), ih fun x hx => h x (List.mem_cons_of_mem _ hx)⟩

/-- Filtering out copies of a value that fails the predicate does not
change the first hit of a search. -/
theorem find?_filter_ne (p : Int → Bool) (a : Int) (hpa : p a = false) :
    ∀ l : List Int, (l.filter fun x => x ≠ a).find? p = l.find? p := by
  intro l
  induction l with
  | nil => simp
  | cons b rest ih =>
      by_cases hba : b = a
      · subst hba
        have h1 : ((b :: rest).filter fun x => x ≠ b) = rest.filter fun x => x ≠ b := by
          simp [List.filter_cons]
        rw [h1, ih, List.find?_cons_of_neg _ (by simp [hpa])]
      · have h1 : ((b :: rest).filter fun x => x ≠ a) = b :: (rest.filter fun x => x ≠ a) := by
          simp [List.filter_cons, hba]
        rw [h1]
        cases hpb : p b with
        | true => rw [List.find?_cons_of_pos _ hpb, List.find?_cons_of_pos _ hpb]
        | false =>
            rw [List.find?_cons_of_neg _ (by simp [hpb]),
              List.find?_cons_of_neg _ (by simp [hpb]), ih]

/-- Searching the first-occurrence keys finds the same first hit as
searching the original list. -/
theorem find?_firstKeys (p : Int → Bool) :
    ∀ l : List Int, (firstKeys l).find? p = l.find? p := by
  intro l
  induction l using firstKeys.induct with
  | case1 => simp [firstKeys]
  | case2 b rest ih =>
      rw [firstKeys]
      cases hpb : p b with
      | true => rw [List.find?_cons_of_pos _ hpb, List.find?_cons_of_pos _ hpb]
      | false =>
          rw [List.find?_cons_of_neg _ (by simp [hpb]),
            List.find?_cons_of_neg _ (by simp [hpb]), ih, find?_filter_ne p b hpb]

/-- The selected key is the first key whose count attains the given
value, provided its own count attains it. -/
theorem pickMode_find (l : List Int) (C : Nat) :
    ∀ keys m, pickMode l keys = some m → l.count m = C →
      keys.find? (fun v => l.count v == C) = some m := by
  intro keys
  induction keys with
  | nil => intro m h; simp [pickMode] at h
  | cons k ks ih =>
      intro m h hC
      simp only [pickMode] at h
      cases hp : pickMode l ks with
      | none =>
          rw [hp] at h
          dsimp only at h
          obtain rfl : k = m := by simpa using h
          rw [List.find?_cons_of_pos _ (by simp [hC])]
      | some m' =>
          rw [hp] at h
          dsimp only at h
          by_cases hgt : l.count m' > l.count k
          · rw [if_pos hgt] at h
            obtain rfl : m' = m := by simpa using h
            have hkC : l.count k ≠ C := by omega
            rw [List.find?_cons_of_neg _ (by simpa using hkC)]
            exact ih _ hp hC
          · rw [if_neg hgt] at h
            obtain rfl : k = m := by simpa using h
            rw [List.find?_cons_of_pos _ (by simp [hC])]

/-- A digit-only string is read by `int(...)` as its decimal value. -/
theorem pyInt_of_digits (s : String) (h : isDigitStringB s = true) :
    pyInt s = some ((natOfDigitsL s.toList : Int)) := by
  unfold isDigitStringB at h
  unfold pyInt
  cases hl : s.toList with
  | nil => rw [hl] at h; simp at h
  | cons c cs =>
      rw [hl] at h
      simp only [List.isEmpty_cons, Bool.not_false, Bool.true_and, List.all_cons,
        Bool.and_eq_true] at h
      obtain ⟨hc, hcs⟩ := h
      have h1 : ¬c = '-' := by rintro rfl; exact absurd hc (by decide)
      have h2 : ¬c = '+' := by rintro rfl; exact absurd hc (by decide)
      dsimp only
      rw [if_neg h1, if_neg h2, if_pos (by simp [List.all_cons, hc, hcs])]

/-- `statistics.mode` returns a value on any nonempty column. -/
theorem statsMode_total (l : List Int) (h : l ≠ []) : ∃ m, statsMode l = .ok m := by
  unfold statsMode
  cases hp : pickMode l (firstKeys l) with
  | none => exact absurd ((pickMode_eq_none _ _).mp hp) (firstKeys_ne_nil l h)
  | some m => exact ⟨m, rfl⟩

/-- A returned mode is an element of the column of maximal frequency, and
the first element of the column attaining that frequency. -/
theorem statsMode_spec (l : List Int) (m : Int) (h : statsMode l = .ok m) :
    m ∈ l ∧ l.count m = maxCount l ∧
      l.find? (fun v => l.count v == maxCount l) = some m := by
  unfold statsMode at h
  cases hp : pickMode l (firstKeys l) with
  | none => rw [hp] at h; exact absurd h (by simp)
  | some m0 =>
      rw [hp] at h
      obtain rfl : m0 = m := by simpa using h
      obtain ⟨hmem, hmax⟩ := pickMode_spec l (firstKeys l) m0 hp
      have hmeml : m0 ∈ l := (mem_firstKeys l m0).mp hmem
      have hall : ∀ x ∈ l, l.count x ≤ l.count m0 := fun x hx =>
        hmax x ((mem_firstKeys l x).mpr hx)
      have hle : l.count m0 ≤ maxCount l :=
        le_foldr_max _ _ (List.mem_map_of_mem _ hmeml)
      have hge : maxCount l ≤ l.count m0 := by
        refine foldr_max_le _ _ ?_
        intro x hx
        obtain ⟨v, hv, rfl⟩ := List.mem_map.mp hx
        exact hall v hv
      have hC : l.count m0 = maxCount l := Nat.le_antisymm hle hge
      refine ⟨hmeml, hC, ?_⟩
      rw [← find?_firstKeys]
      exact pickMode_find l (maxCount l) (firstKeys l) m0 hp hC

/-- `statistics.mean` returns a value on any nonempty column. -/
theorem statsMean_total (l : List Int) (h : l ≠ []) : ∃ q, statsMean l = .ok q := by
  unfold statsMean
  rw [if_neg (by simpa using h)]
  exact ⟨_, rfl⟩

/-- Sorted insertion grows the length by one. -/
theorem length_insertSorted (x : Int) (l : List Int) :
    (insertSorted x l).length = l.length + 1 := by
  induction l with
  | nil => rfl
  | cons y ys ih =>
      simp only [insertSorted]
      split
      · simp
      · simp [ih]

/-- Sorting preserves length. -/
theorem length_sortInts (l : List Int) : (sortInts l).length = l.length := by
  induction l with
  | nil => rfl
  | cons y ys ih =>
      simp only [sortInts, List.foldr_cons] at ih ⊢
      rw [length_insertSorted, ih, List.length_cons]

/-- `statistics.median` returns a value on any nonempty column. -/
theorem statsMedian_total (l : List Int) (h : l ≠ []) : ∃ q, statsMedian l = .ok q := by
  have hn : (sortInts l).length ≠ 0 := by
    rw [length_sortInts]
    simpa using h
  simp only [statsMedian]
  rw [if_neg hn]
  split
  · exact ⟨_, rfl⟩
  · exact ⟨_, rfl⟩

/-- Events none of which is DL-typed contribute no DL date. -/
theorem dlDatesList_nil_of_no_dl (evs : List Event)
    (h : ∀ e ∈ evs, ¬e.eventType = some "DL") : dlDatesList evs = [] := by
  induction evs with
  | nil => rfl
  | cons ev rest ih =>
      unfold dlDatesList
      rw [List.filterMap_cons]
      have hev : ¬ev.eventType = some "DL" := h ev (by simp)
      have hrest : dlDatesList rest = [] := ih fun e he => h e (List.mem_cons_of_mem _ he)
      unfold dlDatesList at hrest
      cases hnl : ev.numberLong with
      | none => simpa using hrest
      | some ms => simp [hnl, hev, hrest]

/-- Last-write-wins with no default is the plain last element. -/
theorem lastOr_none (l : List Int) : lastOr l none = l.getLast? := by
  unfold lastOr
  cases l.getLast? <;> rfl

/-- The pandas attempt count equals the number of distinct OD dates plus
one exactly when the DL date is not among them. -/
theorem count_attempts_eq (odTs : List Int) (dlTs : Int) :
    count_attempts odTs dlTs =
      ((odTs.map istDateOfMs).dedup).length +
        (if istDateOfMs dlTs ∈ odTs.map istDateOfMs then 0 else 1) := by
  simp only [count_attempts]
  rw [List.card_toFinset]
  by_cases hm : istDateOfMs dlTs ∈ odTs.map istDateOfMs
  · rw [if_pos (List.mem_toFinset.mpr hm), if_pos hm]
  · rw [if_neg (fun hc => hm (List.mem_toFinset.mp hc)), if_neg hm]

/-- The pincode field of a pandas flat row is exactly the PU-event
resolution, with no fallback. -/
theorem flattenDetail_pin (det : TrackDetail) (row : FlatRow)
    (h : flattenDetail det = .ok row) :
    puPinPandas det.events = .ok row.pickup_pincode := by
  simp only [flattenDetail] at h
  cases htn : det.trackingNumber with
  | none => rw [htn] at h; exact absurd h (by simp)
  | some tn =>
  rw [htn] at h
  dsimp only at h
  cases hw : det.shipmentWeightValue with
  | none => rw [hw] at h; exact absurd h (by simp)
  | some w =>
  rw [hw] at h
  dsimp only at h
  cases hpairs : dtPairsPandas det.datesOrTimes with
  | error msg => rw [hpairs] at h; exact absurd h (by simp)
  | ok pairs =>
  rw [hpairs] at h
  dsimp only at h
  cases hodts : odTsPandas det.events with
  | error msg => rw [hodts] at h; exact absurd h (by simp)
  | ok odTs =>
  rw [hodts] at h
  dsimp only at h
  cases hdlts : dlTsPandas det.events with
  | error msg => rw [hdlts] at h; exact absurd h (by simp)
  | ok dlTs =>
  rw [hdlts] at h
  dsimp only at h
  cases hship : det.shipperAddress with
  | none => rw [hship] at h; exact absurd h (by simp)
  | some ship =>
  rw [hship] at h
  dsimp only at h
  cases hdest : det.destinationAddress with
  | none => rw [hdest] at h; exact absurd h (by simp)
  | some dest =>
  rw [hdest] at h
  dsimp only at h
  cases hpin : puPinPandas det.events with
  | error msg => rw [hpin] at h; exact absurd h (by simp)
  | ok pin =>
  rw [hpin] at h
  dsimp only at h
  simp only [Except.ok.injEq] at h
  rw [← h]

/-- C1: for every shipment that reaches attempt counting,
delivery_attempts equals the number of distinct IST calendar dates of its
OD-typed events, plus exactly one if the DL event's IST date is not among
those dates; with zero OD events the result is 1.  Stated for the pandas
`count_attempts` (first two conjuncts) and for rows the script emits when
a DL date was resolved (third conjunct). -/
theorem c1_delivery_attempts_formula :
    (∀ odTs dlTs, count_attempts odTs dlTs =
        ((odTs.map istDateOfMs).dedup).length +
          (if istDateOfMs dlTs ∈ odTs.map istDateOfMs then 0 else 1)) ∧
    (∀ dlTs, count_attempts [] dlTs = 1) ∧
    (∀ det row x, processDetail det = .emit row → dlDateLast det.events = some x →
        row.delivery_attempts =
          ((odDatesList det.events).dedup).length +
            (if x ∈ odDatesList det.events then 0 else 1)) := by
  refine ⟨count_attempts_eq, ?_, ?_⟩
  · intro dlTs
    rw [count_attempts_eq]
    simp
  · intro det row x hemit hdl
    obtain ⟨praw, draw, pz, dz, od, dl, _, _, _, _, _, _, hscan, _, _, _, hatt, _⟩ :=
      processDetail_emit_inv det row hemit
    obtain ⟨hod, hdl2⟩ := scanEv_ok det.events ∅ none od dl hscan
    have hdlx : dl = some x := by
      rw [hdl2, lastOr_none]
      exact hdl
    rw [hatt, hod, hdlx]
    show (∅ ∪ (odDatesList det.events).toFinset).card +
        (if x ∈ ∅ ∪ (odDatesList det.events).toFinset then 0 else 1) = _
    rw [Finset.empty_union, List.card_toFinset]
    by_cases hm : x ∈ odDatesList det.events
    · rw [if_pos (List.mem_toFinset.mpr hm), if_pos hm]
    · rw [if_neg (fun hc => hm (List.mem_toFinset.mp hc)), if_neg hm]

/-- Witness for C1 at a concrete shipment with OD events on two distinct
IST dates and a DL on the second of them. -/
theorem c1_delivery_attempts_formula_witness :
    rowW1.delivery_attempts =
      ((odDatesList detW1.events).dedup).length +
        (if 19724 ∈ odDatesList detW1.events then 0 else 1) :=
  c1_delivery_attempts_formula.2.2 detW1 rowW1 19724 (by decide) (by decide)

/-- C2 (amended): on any nonempty column the mode computation never
fails — even when several values tie for highest frequency — and returns
the first element of the column whose frequency is maximal. -/
theorem c2_mode_amended :
    (∀ l : List Int, l ≠ [] → ∃ m, statsMode l = .ok m) ∧
    (∀ l m, statsMode l = .ok m →
        m ∈ l ∧ l.count m = maxCount l ∧
        l.find? (fun v => l.count v == maxCount l) = some m) :=
  ⟨statsMode_total, statsMode_spec⟩

/-- C2 counterexample: the column [3, 3, 5, 5] has two values tied for
highest frequency, yet the mode computation silently returns 3 instead
of failing. -/
theorem c2_mode_counterexample :
    hasModeTie [3, 3, 5, 5] = true ∧ statsMode [3, 3, 5, 5] = .ok 3 :=
  ⟨by decide, by simp [statsMode, firstKeys, pickMode, List.filter]⟩

/-- Witness for C2 on the tied column [3, 3, 5, 5]. -/
theorem c2_mode_amended_witness :
    statsMode [3, 3, 5, 5] = .ok 3 ∧
      (3 ∈ ([3, 3, 5, 5] : List Int) ∧
        ([3, 3, 5, 5] : List Int).count 3 = maxCount [3, 3, 5, 5] ∧
        ([3, 3, 5, 5] : List Int).find?
          (fun v => ([3, 3, 5, 5] : List Int).count v == maxCount [3, 3, 5, 5]) = some 3) := by
  have h : statsMode [3, 3, 5, 5] = .ok 3 := by
    simp [statsMode, firstKeys, pickMode, List.filter]
  exact ⟨h, c2_mode_amended.2 _ 3 h⟩

/-- C3 (amended): a first track block without a DL event is not rejected
with an error naming the tracking number: the pandas implementation fails
with the bare constant "StopIteration" (independent of the tracking
number), and the script implementation is no error at all — it emits a
flat row whose attempt count is just the number of distinct OD dates. -/
theorem c3_missing_dl_amended :
    (∀ det pairs odTs,
        det.trackingNumber.isSome = true →
        det.shipmentWeightValue.isSome = true →
        dtPairsPandas det.datesOrTimes = .ok pairs →
        odTsPandas det.events = .ok odTs →
        (det.events.find? fun e => e.eventType = some "DL") = none →
        flattenDetail det = .error "StopIteration") ∧
    (∀ det row, processDetail det = .emit row →
        (∀ e ∈ det.events, ¬e.eventType = some "DL") →
        row.delivery_attempts = ((odDatesList det.events).dedup).length) := by
  constructor
  · intro det pairs odTs h1 h2 hpairs hodts hfind
    obtain ⟨tn, htn⟩ := Option.isSome_iff_exists.mp h1
    obtain ⟨w, hw⟩ := Option.isSome_iff_exists.mp h2
    have hdl : dlTsPandas det.events = .error "StopIteration" := by
      unfold dlTsPandas
      rw [hfind]
    simp only [flattenDetail, htn, hw, hpairs, hodts, hdl]
  · intro det row hemit hnodl
    obtain ⟨praw, draw, pz, dz, od, dl, _, _, _, _, _, _, hscan, _, _, _, hatt, _⟩ :=
      processDetail_emit_inv det row hemit
    obtain ⟨hod, hdl2⟩ := scanEv_ok det.events ∅ none od dl hscan
    have hdlx : dl = none := by
      rw [hdl2, dlDatesList_nil_of_no_dl det.events hnodl]
      rfl
    rw [hatt, hod, hdlx]
    show (∅ ∪ (odDatesList det.events).toFinset).card + 0 = _
    rw [Finset.empty_union, List.card_toFinset, Nat.add_zero]

/-- C3 counterexample: a concrete record whose only events are a single
OD and no DL; the script run succeeds and emits one flat row for it, and
the pandas failure is the constant "StopIteration", which does not
mention the tracking number "TN3003". -/
theorem c3_missing_dl_counterexample :
    emittedCountScript (processShipments [⟨[detC3]⟩]) = some 1 ∧
      flatten_shipments [⟨[detC3]⟩] = .error "StopIteration" :=
  ⟨by decide, by decide⟩

/-- Witness for C3 at the concrete DL-less record. -/
theorem c3_missing_dl_amended_witness :
    flattenDetail detC3 = .error "StopIteration" ∧
      rowC3.delivery_attempts = ((odDatesList detC3.events).dedup).length :=
  ⟨c3_missing_dl_amended.1 detC3
      [("ACTUAL_PICKUP", "2024-01-01T10:00:00Z"), ("ACTUAL_DELIVERY", "2024-01-03T05:00:00+05:30")]
      [1704110400000] (by decide) (by decide) (by decide) (by decide) (by decide),
    c3_missing_dl_amended.2 detC3 rowC3 (by decide) (by decide)⟩

/-- C4: the pandas timestamp normalizer auto-detects the encoding: a
digit-only string is epoch milliseconds UTC; any other string goes
through the ISO-8601 parser, with UTC assumed when the parse carries no
offset and the carried offset subtracted otherwise; both paths convert
the instant unchanged into the IST offset. -/
theorem c4_auto_detect :
    (∀ s, isDigitStringB s = true →
        parse_to_ist s = some ⟨(natOfDigitsL s.toList : Int), istOffsetMin⟩) ∧
    (∀ s r, isDigitStringB s = false → isoparse s = some r →
        parse_to_ist s = some ⟨isoInstantMs r, istOffsetMin⟩) ∧
    (∀ r : IsoResult, r.offsetMin = none →
        isoInstantMs r = epochMsOfCivil r.year r.month r.day r.hour r.minute r.second) ∧
    (∀ (r : IsoResult) (off : Int), r.offsetMin = some off →
        isoInstantMs r =
          epochMsOfCivil r.year r.month r.day r.hour r.minute r.second - off * 60000) := by
  refine ⟨?_, ?_, ?_, ?_⟩
  · intro s h
    simp [parse_to_ist, h]
  · intro s r h hr
    simp [parse_to_ist, h, hr]
  · intro r h
    simp [isoInstantMs, h]
  · intro r off h
    simp [isoInstantMs, h]

/-- Witness for C4: a digit-only input taken as epoch milliseconds and a
Z-suffixed ISO input taken through the ISO branch. -/
theorem c4_auto_detect_witness :
    parse_to_ist "1704067200000" =
      some ⟨(natOfDigitsL "1704067200000".toList : Int), istOffsetMin⟩ ∧
    parse_to_ist "2024-01-10T23:50:00Z" =
      some ⟨isoInstantMs ⟨2024, 1, 10, 23, 50, 0, some 0⟩, istOffsetMin⟩ :=
  ⟨c4_auto_detect.1 "1704067200000" (by decide),
    c4_auto_detect.2.1 "2024-01-10T23:50:00Z" ⟨2024, 1, 10, 23, 50, 0, some 0⟩
      (by decide) (by decide)⟩

/-- C5: days_taken is the calendar-date difference of the IST-converted
delivery and pickup timestamps — truncate each to its IST calendar day,
then subtract.  The script computes it as the date difference directly
(first conjunct); the pandas normalize-then-subtract computation equals
the same date difference (second conjunct); the value can be negative and
is not clamped (third conjunct, a concrete negative instance). -/
theorem c5_days_taken :
    (∀ det row, processDetail det = .emit row →
        row.days_taken = localDayOf row.delivery_dt - localDayOf row.pickup_dt) ∧
    (∀ p d : ZonedDT, p.offsetMin = istOffsetMin → d.offsetMin = istOffsetMin →
        pandasDaysTaken p d = localDayOf d - localDayOf p) ∧
    pandasDaysTaken ⟨1704153600000, istOffsetMin⟩ ⟨1704067200000, istOffsetMin⟩ = -1 := by
  refine ⟨?_, ?_, by decide⟩
  · intro det row h
    obtain ⟨_, _, pz, dz, _, _, _, _, _, _, _, _, _, hpdt, hddt, hdays, _, _⟩ :=
      processDetail_emit_inv det row h
    rw [hdays, hpdt, hddt]
  · intro p d hp hd
    unfold pandasDaysTaken normalizeInstant
    rw [hp, hd]
    have he : localDayOf d * 86400000 - istOffsetMin * 60000 -
        (localDayOf p * 86400000 - istOffsetMin * 60000) =
        (localDayOf d - localDayOf p) * 86400000 := by ring
    rw [he, Int.mul_fdiv_cancel _ (by norm_num)]

/-- Witness for C5 at a concrete shipment (pickup 2024-01-01 IST,
delivery 2024-01-03 IST, two days). -/
theorem c5_days_taken_witness :
    rowW5.days_taken = localDayOf rowW5.delivery_dt - localDayOf rowW5.pickup_dt :=
  c5_days_taken.1 detW5 rowW5 (by decide)

/-- C6 (amended): the script prefers the PU event's postal code when it
is present and nonempty, and otherwise falls back to the shipper
address's postal code; the pandas implementation uses only the PU event
resolution and leaves the pincode null when there is no PU event, even if
the shipper address has one. -/
theorem c6_pickup_pincode_amended :
    (∀ det row p, processDetail det = .emit row →
        puPinOf det.events = some p → ¬p = "" →
        row.pickup_pincode = p) ∧
    (∀ det row, processDetail det = .emit row →
        (puPinOf det.events = none ∨ puPinOf det.events = some "") →
        row.pickup_pincode = ((det.shipperAddress.getD emptyAddress).postalCode).getD "") ∧
    (∀ det row, flattenDetail det = .ok row →
        (det.events.find? fun e => e.eventType = some "PU") = none →
        row.pickup_pincode = none) := by
  refine ⟨?_, ?_, ?_⟩
  · intro det row p hemit hpu hpne
    obtain ⟨_, _, _, _, _, _, _, _, _, _, _, _, _, _, _, _, _, hpin⟩ :=
      processDetail_emit_inv det row hemit
    rw [hpin, hpu]
    exact if_neg hpne
  · intro det row hemit hpu
    obtain ⟨_, _, _, _, _, _, _, _, _, _, _, _, _, _, _, _, _, hpin⟩ :=
      processDetail_emit_inv det row hemit
    rcases hpu with hpu | hpu <;> rw [hpin, hpu]
    exact if_pos rfl
  · intro det row hok hfind
    have hp := flattenDetail_pin det row hok
    unfold puPinPandas at hp
    rw [hfind] at hp
    exact (Except.ok.inj hp).symm

/-- C6 counterexample: a concrete record with no PU event whose shipper
address carries postal code "110001"; the pandas flat row still has a
null pincode. -/
theorem c6_pickup_pincode_counterexample :
    flatten_shipments [⟨[detC6]⟩] = .ok [flatC6] ∧
      flatC6.pickup_pincode = none ∧
      detC6.shipperAddress = some ⟨some "New Delhi", some "DL", some "110001"⟩ :=
  ⟨by decide, rfl, rfl⟩

/-- Witness for C6: a PU pincode taken when present, the shipper
fallback taken when no PU event exists, and the pandas null. -/
theorem c6_pickup_pincode_amended_witness :
    rowW6.pickup_pincode = "110042" ∧
      rowC6s.pickup_pincode = ((detC6.shipperAddress.getD emptyAddress).postalCode).getD "" ∧
      flatC6.pickup_pincode = none :=
  ⟨c6_pickup_pincode_amended.1 detW6 rowW6 "110042" (by decide) (by decide) (by decide),
    c6_pickup_pincode_amended.2.1 detC6 rowC6s (by decide) (Or.inl (by decide)),
    c6_pickup_pincode_amended.2.2 detC6 flatC6 (by decide) (by decide)⟩

/-- C7: a raw record whose track-detail list is empty is skipped without
error by both implementations — it contributes no row and no column
values — and for non-empty lists only the first track-detail block
matters. -/
theorem c7_skip_empty_first_block :
    (∀ rec : RawRecord, rec.trackDetails = [] →
        processRecord rec = .skip ∧ flatRowOf rec = none) ∧
    (∀ (rec : RawRecord) (rest : List RawRecord), rec.trackDetails = [] →
        processShipments (rec :: rest) = processShipments rest ∧
        flatten_shipments (rec :: rest) = flatten_shipments rest) ∧
    (∀ r1 r2 : RawRecord, r1.trackDetails.head? = r2.trackDetails.head? →
        processRecord r1 = processRecord r2 ∧ flatRowOf r1 = flatRowOf r2) := by
  refine ⟨?_, ?_, ?_⟩
  · intro rec h
    exact ⟨by simp [processRecord, h], by simp [flatRowOf, h]⟩
  · intro rec rest h
    constructor
    · simp only [processShipments, processRecord, h]
    · simp only [flatten_shipments, h]
  · intro r1 r2 h
    cases ht1 : r1.trackDetails with
    | nil =>
        cases ht2 : r2.trackDetails with
        | nil => simp [processRecord, flatRowOf, ht1, ht2]
        | cons d2 m2 => rw [ht1, ht2] at h; simp at h
    | cons d1 m1 =>
        cases ht2 : r2.trackDetails with
        | nil => rw [ht1, ht2] at h; simp at h
        | cons d2 m2 =>
            rw [ht1, ht2] at h
            simp only [List.head?_cons, Option.some.injEq] at h
            subst h
            simp [processRecord, flatRowOf, ht1, ht2]

/-- Witness for C7 at the concrete empty record. -/
theorem c7_skip_empty_first_block_witness :
    (processRecord ⟨[]⟩ = .skip ∧ flatRowOf ⟨[]⟩ = none) ∧
      processShipments [(⟨[]⟩ : RawRecord)] = processShipments [] :=
  ⟨c7_skip_empty_first_block.1 ⟨[]⟩ rfl,
    (c7_skip_empty_first_block.2.1 ⟨[]⟩ [] rfl).1⟩

/-- C8: with an empty column (zero surviving shipments) the summary step
of both implementations fails — with the `statistics` library's
empty-data error, realizing the spec's EmptyInputError — and emits no
summary rows. -/
theorem c8_empty_input (days atts : List Int) (h : days = [] ∨ atts = []) :
    write_summary_csv days atts =
        .error "StatisticsError: mean requires at least one data point" ∧
      write_summary_pandas days atts =
        .error "StatisticsError: mean requires at least one data point" := by
  rcases h with h | h
  · subst h
    exact ⟨rfl, rfl⟩
  · subst h
    by_cases hd : days = []
    · subst hd
      exact ⟨rfl, rfl⟩
    · obtain ⟨q1, h1⟩ := statsMean_total days hd
      obtain ⟨q2, h2⟩ := statsMedian_total days hd
      obtain ⟨q3, h3⟩ := statsMode_total days hd
      constructor
      · simp only [write_summary_csv, h1, h2, h3]
        rfl
      · simp only [write_summary_pandas, h1, h2, h3]
        rfl

/-- Witness for C8 at the concrete empty columns. -/
theorem c8_empty_input_witness :
    write_summary_csv [] [] =
        .error "StatisticsError: mean requires at least one data point" ∧
      write_summary_pandas [] [] =
        .error "StatisticsError: mean requires at least one data point" :=
  c8_empty_input [] [] (Or.inl rfl)

/-- C9: a millisecond-epoch string and the ISO-8601 UTC string of the
same instant normalize to the identical IST timestamp — through the
pandas auto-detecting normalizer (first conjunct) and through the
script's pair of converters (second conjunct). -/
theorem c9_roundtrip (s : String) (y m d hh mi ss : Nat)
    (hdig : isDigitStringB s = true) (hv : validCivil y m d hh mi ss)
    (heq : (natOfDigitsL s.toList : Int) = epochMsOfCivil y m d hh mi ss) :
    parse_to_ist s = parse_to_ist (isoUtcString y m d hh mi ss) ∧
      millis_to_ist s = parse_iso_to_ist (isoUtcString y m d hh mi ss) := by
  have hiso : isoparse (isoUtcString y m d hh mi ss) =
      some ⟨y, m, d, hh, mi, ss, some 0⟩ := by
    show isoparseChars (isoUtcString y m d hh mi ss).toList = _
    rw [isoUtcString, toList_mk]
    exact isoparseChars_isoUtc y m d hh mi ss hv
  have hnd := isoUtcString_not_digits y m d hh mi ss
  constructor
  · rw [parse_to_ist, if_pos hdig, parse_to_ist, if_neg (by simp [hnd]), hiso]
    simp only [isoInstantMs, Option.map_some', Option.some.injEq, ZonedDT.mk.injEq,
      Option.getD_some, and_true]
    rw [heq]
    ring
  · rw [millis_to_ist, pyInt_of_digits s hdig, parse_iso_to_ist, hiso]
    simp only [isoInstantMs, Option.map_some', Option.some.injEq, ZonedDT.mk.injEq,
      Option.getD_some, and_true]
    rw [heq]
    ring

/-- Witness for C9 at the instant 2024-01-10T23:50:00Z. -/
theorem c9_roundtrip_witness :
    parse_to_ist "1704930600000" = parse_to_ist (isoUtcString 2024 1 10 23 50 0) ∧
      millis_to_ist "1704930600000" = parse_iso_to_ist (isoUtcString 2024 1 10 23 50 0) :=
  c9_roundtrip "1704930600000" 2024 1 10 23 50 0 (by decide) (by decide) (by decide)

/-- C10: a successful normalization run emits at most one flat record
per raw record and preserves input order — the output is exactly the
order-preserving selection of the records that produce a row — and the
two numeric columns of the script are index-aligned projections of the
rows, all of equal length. -/
theorem c10_order_alignment :
    (∀ raw rows days atts, processShipments raw = .ok (rows, days, atts) →
        rows = raw.filterMap emittedRowOf ∧
        days = rows.map Row.days_taken ∧
        atts = rows.map Row.delivery_attempts ∧
        days.length = rows.length ∧ atts.length = rows.length) ∧
    (∀ raw rows, flatten_shipments raw = .ok rows →
        rows = raw.filterMap flatRowOf) := by
  constructor
  · intro raw rows days atts h
    obtain ⟨h1, h2, h3⟩ := processShipments_ok raw rows days atts h
    exact ⟨h1, h2, h3, by rw [h2, List.length_map], by rw [h3, List.length_map]⟩
  · exact fun raw rows h => flatten_shipments_ok raw rows h

/-- Witness for C10 at a concrete two-record input whose first record is
skipped. -/
theorem c10_order_alignment_witness :
    ([rowW10] : List Row) = ([⟨[]⟩, ⟨[detW10]⟩] : List RawRecord).filterMap emittedRowOf ∧
      [(2 : Int)] = [rowW10].map Row.days_taken ∧
      [(1 : Nat)] = [rowW10].map Row.delivery_attempts ∧
      [(2 : Int)].length = [rowW10].length ∧ [(1 : Nat)].length = [rowW10].length :=
  c10_order_alignment.1 [⟨[]⟩, ⟨[detW10]⟩] [rowW10] [2] [1] (by decide)
